import Mathlib

/-!
# Verification of the query-builder / row-mapper in `src/index.js`

Shallow embedding of the `DB` class of `node-pg-client-wrapper`.
Field values are modelled as JavaScript values (undefined, null, boolean,
number restricted to integers, string, and plain object); the database
driver is modelled as an oracle `Exec` mapping each executed statement to
rows or an error; promise completion is modelled by the three-valued
`Outcome` (resolved / rejected / hung, the last for a promise that never
settles).  The module-level configuration constants `dbStatusField`,
`dbStatusValues` and `dbSanitizeFields` are, per the specification,
external configuration, and are gathered in the `Cfg` structure over which
the theorems quantify.
-/

set_option autoImplicit false

namespace PgWrap

/-- A JavaScript scalar or plain-object value, as used for column values and
query parameters.  Nested objects carry their fields in insertion order. -/
inductive Value where
  | vUndefined : Value
  | vNull : Value
  | vBool (b : Bool) : Value
  | vInt (n : Int) : Value
  | vStr (s : String) : Value
  | vObj (fields : List (String × Value)) : Value

open Value

/-- JavaScript truthiness of a value (`if (v)`). -/
def truthy : Value → Bool
  | vUndefined => false
  | vNull => false
  | vBool b => b
  | vInt n => n != 0
  | vStr s => s != ""
  | vObj _ => true

/-- `String(v)` / template-literal rendering of a value. -/
def jsString : Value → String
  | vUndefined => "undefined"
  | vNull => "null"
  | vBool b => if b then "true" else "false"
  | vInt n => toString n
  | vStr s => s
  | vObj _ => "[object Object]"

mutual

/-- `JSON.stringify(v)` restricted to the modelled values; `undefined`
serializes to no string (the JS call returns undefined), which the caller
`coerce` keeps as `vUndefined`.  String escaping is not modelled. -/
def jsonStr : Value → String
  | vUndefined => "undefined"
  | vNull => "null"
  | vBool b => if b then "true" else "false"
  | vInt n => toString n
  | vStr s => "\"" ++ s ++ "\""
  | vObj fs => "\x7b" ++ String.intercalate "," (jsonStrFields fs) ++ "\x7d"

/-- Serialized `"key":value` members of an object; fields holding
`undefined` are omitted, as `JSON.stringify` does. -/
def jsonStrFields : List (String × Value) → List String
  | [] => []
  | (k, v) :: t =>
    match v with
    | vUndefined => jsonStrFields t
    | w => ("\"" ++ k ++ "\":" ++ jsonStr w) :: jsonStrFields t

end

mutual

/-- Model of lodash `_.isEqual` on the modelled values.  Scalars compare by
value; objects compare field-by-field.  (Lodash additionally ignores key
order inside nested objects; the claims only exercise flat maps whose key
sequences coincide by construction, where the two notions agree.) -/
def isEqualV : Value → Value → Bool
  | vUndefined, vUndefined => true
  | vNull, vNull => true
  | vBool a, vBool b => a == b
  | vInt a, vInt b => a == b
  | vStr a, vStr b => a == b
  | vObj a, vObj b => isEqualFields a b
  | _, _ => false

/-- Field-by-field equality of two object field lists. -/
def isEqualFields : List (String × Value) → List (String × Value) → Bool
  | [], [] => true
  | (k, v) :: t, (k2, v2) :: t2 => k == k2 && isEqualV v v2 && isEqualFields t t2
  | _, _ => false

end

/-- Loose JavaScript equality `v == s` against a string, as used by
`columns.find((col) => col.column_name == field)`.  Strings compare
directly; numbers compare through their decimal rendering; `null`,
`undefined` and booleans never equal a column-name string in the modelled
flows; an object compares through its `[object Object]` rendering. -/
def looseEqStr : Value → String → Bool
  | vStr t, s => t == s
  | vInt n, s => toString n == s
  | vObj _, s => "[object Object]" == s
  | _, _ => false

/-- A field map: a JavaScript object in insertion order, mapping column
names to values. -/
abbrev FieldMap := List (String × Value)

/-- A result row, as returned by the driver. -/
abbrev Row := FieldMap

/-- JavaScript property read `m[k]`: the first binding of `k`, or
`undefined` when absent. -/
def jsGet (m : FieldMap) (k : String) : Value :=
  match m.find? (fun kv => kv.1 == k) with
  | some kv => kv.2
  | none => vUndefined

/-- `m.hasOwnProperty(k)`. -/
def hasKey (m : FieldMap) (k : String) : Bool :=
  m.any (fun kv => kv.1 == k)

/-- Model of `_.isEqual` on two flat field maps: same key set (counted with
multiplicity via length) and pointwise `isEqualV` values in both
directions. -/
def isEqualMap (a b : FieldMap) : Bool :=
  a.length == b.length
    && a.all (fun kv => isEqualV (jsGet b kv.1) kv.2)
    && b.all (fun kv => isEqualV (jsGet a kv.1) kv.2)

/-- The `dbStatusValues` object of the source: `Active`, `Delete` and
`Archived` members (the source initializes all three to `null`; the values
are external configuration). -/
structure StatusValues where
  Active : Value
  Delete : Value
  Archived : Value

/-- JavaScript property read on the `dbStatusValues` object.  Any member
name other than the three declared ones — notably the `Deleted` name that
the `delete` method reads — yields `undefined`. -/
def statusLookup (sv : StatusValues) (k : String) : Value :=
  if k == "Active" then sv.Active
  else if k == "Delete" then sv.Delete
  else if k == "Archived" then sv.Archived
  else vUndefined

/-- The module-level configuration: `dbStatusField` (none models `null`),
`dbStatusValues`, and the `dbSanitizeFields` toggle. -/
structure Cfg where
  statusField : Option String
  statusValues : StatusValues
  sanitize : Bool

/-- A statement handed to the driver: SQL text plus positional parameters. -/
structure Stmt where
  sql : String
  args : List Value

/-- A driver-level error. -/
structure DbErr where
  msg : String

/-- The driver response to one statement. -/
inductive ExecResult where
  | ok (rows : List Row) : ExecResult
  | err (e : DbErr) : ExecResult

/-- The database-execution collaborator: a deterministic oracle from the
executed statement to its response. -/
abbrev Exec := Stmt → ExecResult

/-- A JavaScript `Error` as observed by a rejection handler: its message
and the `args` property that `query` attaches to driver errors (absent on
the fresh `Error` that `select` constructs; the fresh errors of `delete`
and `sanitizeFields` sit on error paths the program never reaches, see
`deleteRun` and `sanitizeNCRun`). -/
structure JsError where
  msg : String
  args : Option (List Value)

/-- Completion of a returned promise: resolved with a value, rejected with
an error, or never settled (`hung`). -/
inductive Outcome (α : Type) where
  | resolved (v : α) : Outcome α
  | rejected (e : JsError) : Outcome α
  | hung : Outcome α

/-- First-occurrence string replacement on character lists, the semantics
of the JavaScript `sql.replace(pat, repl)` with a string pattern. -/
def replFirst (pat repl : List Char) : List Char → List Char
  | [] => []
  | c :: cs =>
    if pat.isPrefixOf (c :: cs) then repl ++ (c :: cs).drop pat.length
    else c :: replFirst pat repl cs

/-- The `query` pre-processing (lines 99–100 of the source): when the SQL
text contains `UPDATE`, splice `modified = now(), ` after its first
`SET `. -/
def transform (sql : String) : String :=
  if ("UPDATE".data) <:+: sql.data then
    String.mk (replFirst ("SET ".data) ("SET modified = now(), ".data) sql.data)
  else sql

/-- Whether an executed statement is an UPDATE statement (its SQL starts
with `UPDATE`). -/
def isUpd (s : Stmt) : Bool :=
  ("UPDATE".data).isPrefixOf s.sql.data

/-- A single-quote character, used by the schema-introspection SQL. -/
def sq : String := String.singleton (Char.ofNat 39)

/-- The schema-introspection statement text of `sanitizeFields`. -/
def schemaSql (table : String) : String :=
  "SELECT * FROM information_schema.columns WHERE table_schema = " ++ sq ++ "public" ++ sq
    ++ " AND table_name = " ++ sq ++ table ++ sq

/-- `columns.find((col) => col.column_name == field)` over the
introspection rows. -/
def findCol (columns : List Row) (field : String) : Option Row :=
  columns.find? (fun col => looseEqStr (jsGet col "column_name") field)

/-- The `json`/`jsonb` branch of the sanitize switch: a string is kept;
anything else is replaced by its `JSON.stringify` text (`undefined` stays
`undefined`, since `JSON.stringify(undefined)` is not a string). -/
def jsonCoerce : Value → Value
  | vStr s => vStr s
  | vUndefined => vUndefined
  | w => vStr (jsonStr w)

/-- The `switch (colData.data_type)` coercion of one field value. -/
def coerce (dt : Value) (v : Value) : Value :=
  match dt with
  | vStr "bit" => if truthy v then vStr "1" else vStr "0"
  | vStr "character varying" => match v with | vNull => vNull | w => vStr (jsString w)
  | vStr "json" => jsonCoerce v
  | vStr "jsonb" => jsonCoerce v
  | _ => v

/-- The field loop of `sanitizeFields` (lines 345–367): drop fields absent
from the schema, coerce the kept ones, and, when comparing, collect the
existing record values of the kept fields.  Returns
(sanitized fields, collected old fields). -/
def sanitizeCore (columns : List Row) (oldData : Row) (compare : Bool) :
    FieldMap → FieldMap × FieldMap
  | [] => ([], [])
  | (k, v) :: rest =>
    let r := sanitizeCore columns oldData compare rest
    match findCol columns k with
    | some col =>
      ((k, coerce (jsGet col "data_type") v) :: r.1,
       if compare then (k, jsGet oldData k) :: r.2 else r.2)
    | none => r

/-- The value `sanitizeFields` resolves with. -/
structure SanResult where
  fields : FieldMap
  /-- The `matches` property of the source (`matches` is reserved in Lean). -/
  matchesV : Option FieldMap

/-- Resolution value of `sanitizeFields` once the columns (and, when
comparing, the existing record) are known. -/
def sanitizeWithColumns (columns : List Row) (oldData : Row) (compare : Bool)
    (fields : FieldMap) : SanResult :=
  let r := sanitizeCore columns oldData compare fields
  { fields := r.1
    matchesV := if compare && isEqualMap r.1 r.2 then some r.2 else none }

/-- The `id` argument of `update`: a scalar primary-key value or a
composite key object. -/
inductive IdArg where
  | scalar (v : Value) : IdArg
  | composite (m : FieldMap) : IdArg

/-- JavaScript truthiness of an `update` id argument (objects are always
truthy). -/
def idTruthy : IdArg → Bool
  | .scalar v => truthy v
  | .composite _ => true

/-- The id argument as a value (a composite key is forwarded as the object
itself, e.g. as the `compareId` filter value). -/
def idToValue : IdArg → Value
  | .scalar v => v
  | .composite m => vObj m

/-- The filter/SET loop shared by `select` (lines 156–162) and `update`
(lines 214–220): produce the `field = $n` fragments (index starting at
`i`) and the positional values, in field order. -/
def matchPairs : FieldMap → Nat → List String × List Value
  | [], _ => ([], [])
  | (k, v) :: rest, i =>
    let r := matchPairs rest (i + 1)
    ((k ++ " = $" ++ toString i) :: r.1, v :: r.2)

/-- `select`: match fragments and values after the implicit-status push of
line 163 — the predicate is appended inline (not parameterized) when a
status column is configured and the original filter value for it is not
truthy. -/
def selectMatch (cfg : Cfg) (fields filter : FieldMap) : List String × List Value :=
  let mp := matchPairs fields 1
  match cfg.statusField with
  | some sf =>
    if truthy (jsGet filter sf) then mp
    else (mp.1 ++ [sf ++ " = " ++ jsString cfg.statusValues.Active], mp.2)
  | none => mp

/-- The SQL text built by `select` (lines 165–167). -/
def selectSql (cfg : Cfg) (table : String) (fields filter : FieldMap)
    (orderBy : Option String) : String :=
  let ms := (selectMatch cfg fields filter).1
  ("SELECT * FROM \"" ++ table ++ "\"")
    ++ (if ms.length > 0 then " WHERE " ++ String.intercalate " AND " ms else "")
    ++ (match orderBy with
        | some o => if o == "" then "" else " ORDER BY " ++ o
        | none => "")

/-- `update`: SET fragments and values after the status push of lines
221–224 — when a status column is configured and the sanitized fields do
not hold a truthy value for it, a parameterized `status = $n` assignment
of the Active value is appended. -/
def updateSet (cfg : Cfg) (fields : FieldMap) : List String × List Value :=
  let mp := matchPairs fields 1
  match cfg.statusField with
  | some sf =>
    if truthy (jsGet fields sf) then mp
    else (mp.1 ++ [sf ++ " = $" ++ toString (mp.1.length + 1)], mp.2 ++ [cfg.statusValues.Active])
  | none => mp

/-- The composite-key WHERE loop of `update` (lines 229–232): each pair
appends `key = $n` directly to the SQL text, with no separator between
consecutive pairs. -/
def compositeWhere : FieldMap → List Value → String × List Value
  | [], vals => ("", vals)
  | (k, v) :: rest, vals =>
    let vals2 := vals ++ [v]
    let r := compositeWhere rest vals2
    (k ++ " = $" ++ toString vals2.length ++ r.1, r.2)

/-- The WHERE fragment of `update` (lines 228–236) and the final values
list. -/
def updateWhere (table : String) (id : IdArg) (vals : List Value) : String × List Value :=
  match id with
  | .scalar v => (table ++ "id = $" ++ toString (vals.length + 1), vals ++ [v])
  | .composite m => compositeWhere m vals

/-- The SQL text built by `update` (lines 227–237) and its values. -/
def updateSql (cfg : Cfg) (table : String) (id : IdArg) (fields : FieldMap) :
    String × List Value :=
  let st := updateSet cfg fields
  let w := updateWhere table id st.2
  ("UPDATE \"" ++ table ++ "\" SET " ++ String.intercalate ", " st.1
      ++ " WHERE " ++ w.1 ++ " RETURNING *",
   w.2)

/-- The `conflict` argument of `insert`: `null`, an array of columns, or a
raw string. -/
inductive ConflictArg where
  | cnull : ConflictArg
  | carr (cols : List String) : ConflictArg
  | cstr (s : String) : ConflictArg

/-- The DO UPDATE assignments (lines 291–295): the `conflictUpdate`
columns, plus an inline Active-status assignment when a status column is
configured and absent from the inserted column names. -/
def doUpdates (cfg : Cfg) (names : List String) (conflictUpdate : List String) : List String :=
  let ds := conflictUpdate.map (fun c => c ++ " = EXCLUDED." ++ c)
  match cfg.statusField with
  | some sf =>
    if names.contains sf then ds
    else ds ++ [sf ++ " = " ++ jsString cfg.statusValues.Active]
  | none => ds

/-- The ON CONFLICT fragment of `insert` (lines 285–297).  A non-empty
array lists its columns in parentheses; an empty array or a raw string is
spliced by string conversion (an empty array converts to the empty
string); `null` produces nothing. -/
def conflictSql (cfg : Cfg) (names : List String) (conflictUpdate : List String) :
    ConflictArg → String
  | .cnull => ""
  | .carr cols =>
    (if cols.length != 0 then " ON CONFLICT (" ++ String.intercalate "," cols ++ ") DO UPDATE SET "
     else " ON CONFLICT " ++ String.intercalate "," cols ++ " DO UPDATE SET ")
      ++ String.intercalate ", " (doUpdates cfg names conflictUpdate) ++ " "
  | .cstr s =>
    " ON CONFLICT " ++ s ++ " DO UPDATE SET "
      ++ String.intercalate ", " (doUpdates cfg names conflictUpdate) ++ " "

/-- The field loop of `insert` (lines 275–282): column names, `$n`
placeholders and values. -/
def insertCols : FieldMap → Nat → List String × List String × List Value
  | [], _ => ([], [], [])
  | (k, v) :: rest, i =>
    let r := insertCols rest (i + 1)
    (k :: r.1, ("$" ++ toString i) :: r.2.1, v :: r.2.2)

/-- The SQL text built by `insert` (lines 284–298) and its values. -/
def insertSql (cfg : Cfg) (table : String) (fields : FieldMap)
    (conflict : ConflictArg) (conflictUpdate : List String) : String × List Value :=
  let p := insertCols fields 1
  ("INSERT INTO \"" ++ table ++ "\" (" ++ String.intercalate "," p.1
      ++ ") VALUES (" ++ String.intercalate "," p.2.1 ++ ") "
      ++ conflictSql cfg p.1 conflictUpdate conflict
      ++ "RETURNING " ++ table ++ "id",
   p.2.2)

/-- The SQL text built by `delete` (lines 389–395): a soft-delete UPDATE
writing the (nonexistent) `Deleted` member of `dbStatusValues` when a
status column is configured, a DELETE otherwise; `idField` defaults to
`table + "id"`; the id is interpolated, not parameterized. -/
def deleteSql (cfg : Cfg) (table : String) (id : Value) (idField : String) : String :=
  let idF := if idField == "" then table ++ "id" else idField
  match cfg.statusField with
  | some sf =>
    "UPDATE \"" ++ table ++ "\" SET " ++ sf ++ " = "
      ++ jsString (statusLookup cfg.statusValues "Deleted")
      ++ " WHERE " ++ idF ++ " = " ++ jsString id
  | none => "DELETE FROM \"" ++ table ++ "\" WHERE " ++ idF ++ " = " ++ jsString id

/-- `sanitizeFields` as called with the default `compareId = null` (the
`select` and `insert` call sites): when sanitization is disabled, an
immediate pass-through with no statement; otherwise one schema lookup.
On a lookup failure the promise never settles: the schema query goes
through the callback-style branch of `query` (lines 90–95), whose error
path evaluates `buildIndex(res, index)` with `res` undefined, and the
else branch of `buildIndex` (line 137) assigns to the undefined `res` —
a TypeError thrown before the callback runs, so the
`Failed To Gather Columns` rejection of line 326 is never reached. -/
def sanitizeNCRun (cfg : Cfg) (exec : Exec) (table : String) (fields : FieldMap) :
    List Stmt × Outcome SanResult :=
  if cfg.sanitize then
    let st : Stmt := { sql := schemaSql table, args := [] }
    match exec st with
    | .err _ => ([st], .hung)
    | .ok columns => ([st], .resolved (sanitizeWithColumns columns [] false fields))
  else ([], .resolved { fields := fields, matchesV := none })

/-- `select` (lines 148–179).  A sanitize failure leaves the promise
unsettled (`hung`): `sanitizeFields` itself never settles on a failing
schema lookup, and even a rejection would find no handler on the `.then`
of line 151.  A failing SELECT (the args-style `query` branch calls
`callback(err, null)` directly, without `buildIndex`) rejects a fresh
`Failed select()` error without the arguments. -/
def selectRun (cfg : Cfg) (exec : Exec) (table : String) (filter : FieldMap)
    (orderBy : Option String) : List Stmt × Outcome (List Row) :=
  let s := sanitizeNCRun cfg exec table filter
  match s.2 with
  | .resolved sr =>
    let sql := selectSql cfg table sr.fields filter orderBy
    let vals := (selectMatch cfg sr.fields filter).2
    let st : Stmt := { sql := transform sql, args := vals }
    match exec st with
    | .ok rows => (s.1 ++ [st], .resolved rows)
    | .err _ => (s.1 ++ [st], .rejected { msg := "Failed select()", args := none })
  | .rejected _ => (s.1, .hung)
  | .hung => (s.1, .hung)

/-- `selectOne` (lines 187–196): first row, or an empty object on zero
rows; rejections propagate. -/
def selectOneRun (cfg : Cfg) (exec : Exec) (table : String) (filter : FieldMap) :
    List Stmt × Outcome Row :=
  let s := selectRun cfg exec table filter none
  (s.1,
   match s.2 with
   | .resolved rows => .resolved (match rows with | r :: _ => r | [] => [])
   | .rejected e => .rejected e
   | .hung => .hung)

/-- `sanitizeFields` (lines 321–380) with a general `compareId` (the
`update` call site).  A failing schema lookup leaves the promise
unsettled, exactly as in `sanitizeNCRun` (the `buildIndex` TypeError of
line 137 fires before the callback, so the rejection of line 326 is never
reached).  With a truthy `compareId` the existing record is fetched
through `selectOne`; that inner promise has no rejection handler, so its
failure also leaves `sanitizeFields` (and its caller) unsettled. -/
def sanitizeFullRun (cfg : Cfg) (exec : Exec) (table : String) (fields : FieldMap)
    (compareId : Option IdArg) : List Stmt × Outcome SanResult :=
  if cfg.sanitize then
    let st : Stmt := { sql := schemaSql table, args := [] }
    match exec st with
    | .err _ => ([st], .hung)
    | .ok columns =>
      match compareId with
      | some cid =>
        if idTruthy cid then
          let s := selectOneRun cfg exec table [(table ++ "id", idToValue cid)]
          match s.2 with
          | .resolved oldData => (st :: s.1, .resolved (sanitizeWithColumns columns oldData true fields))
          | .rejected _ => (st :: s.1, .hung)
          | .hung => (st :: s.1, .hung)
        else ([st], .resolved (sanitizeWithColumns columns [] false fields))
      | none => ([st], .resolved (sanitizeWithColumns columns [] false fields))
  else ([], .resolved { fields := fields, matchesV := none })

/-- The heterogeneous `results` of `update`: the driver rows, or (on the
skip path) the collected old-field object. -/
inductive UpdResults where
  | rowList (rs : List Row) : UpdResults
  | singleObj (m : FieldMap) : UpdResults

/-- The resolution value of `update`: bare results, or a
`(results, updated)` structure when `status` was requested. -/
inductive UpdValue where
  | bare (r : UpdResults) : UpdValue
  | withFlag (results : UpdResults) (updated : Bool) : UpdValue

/-- `update` (lines 205–256).  `compareId` is the id when `status` is
requested, else `null`; the skip path resolves the collected old fields
with `updated: false` and executes no UPDATE; the write path executes one
(transformed) UPDATE and rejects driver errors with the positional values
attached as `args`. -/
def updateRun (cfg : Cfg) (exec : Exec) (table : String) (id : IdArg)
    (data : FieldMap) (status : Bool) : List Stmt × Outcome UpdValue :=
  let compareId := if status then some id else none
  let s := sanitizeFullRun cfg exec table data compareId
  match s.2 with
  | .resolved sr =>
    match sr.matchesV with
    | none =>
      let q := updateSql cfg table id sr.fields
      let st : Stmt := { sql := transform q.1, args := q.2 }
      match exec st with
      | .ok rows =>
        (s.1 ++ [st],
         .resolved (if status then .withFlag (.rowList rows) true else .bare (.rowList rows)))
      | .err e => (s.1 ++ [st], .rejected { msg := e.msg, args := some q.2 })
    | some m =>
      (s.1, .resolved (if status then .withFlag (.singleObj m) false else .bare (.singleObj m)))
  | .rejected e => (s.1, .rejected e)
  | .hung => (s.1, .hung)

/-- `insert` (lines 266–312): one (transformed) INSERT; resolves the
`table + "id"` column of the first returned row; a driver error rejects
with the positional values attached; zero returned rows throw inside the
callback, leaving the promise unsettled. -/
def insertRun (cfg : Cfg) (exec : Exec) (table : String) (data : FieldMap)
    (conflict : ConflictArg) (conflictUpdate : List String) : List Stmt × Outcome Value :=
  let s := sanitizeNCRun cfg exec table data
  match s.2 with
  | .resolved sr =>
    let q := insertSql cfg table sr.fields conflict conflictUpdate
    let st : Stmt := { sql := transform q.1, args := q.2 }
    match exec st with
    | .ok rows =>
      match rows with
      | r :: _ => (s.1 ++ [st], .resolved (jsGet r (table ++ "id")))
      | [] => (s.1 ++ [st], .hung)
    | .err e => (s.1 ++ [st], .rejected { msg := e.msg, args := some q.2 })
  | .rejected e => (s.1, .rejected e)
  | .hung => (s.1, .hung)

/-- `delete` (lines 389–404): one statement through the callback-style
`query` branch (no timestamp transform, no parameters).  On a driver
error the promise never settles: that branch evaluates
`buildIndex(res, index)` with `res` undefined and line 137 throws a
TypeError before the callback runs, so the `Failed To Delete Row`
rejection of line 398 is never reached. -/
def deleteRun (cfg : Cfg) (exec : Exec) (table : String) (id : Value)
    (idField : String) : List Stmt × Outcome Bool :=
  let st : Stmt := { sql := deleteSql cfg table id idField, args := [] }
  match exec st with
  | .ok _ => ([st], .resolved true)
  | .err _ => ([st], .hung)

/-- `buildIndex` grouping step: append the row to its key group, creating
the group at the end on first occurrence (JavaScript object insertion). -/
def addToGroup : List (String × List Row) → String → Row → List (String × List Row)
  | [], k, r => [(k, [r])]
  | (k0, l) :: t, k, r =>
    if k0 == k then (k0, l ++ [r]) :: t
    else (k0, l) :: addToGroup t k r

/-- The row loop of `buildIndex` (lines 130–133); the object key is the
string rendering of the column value (JavaScript property keys are
strings). -/
def groupRows (idx : String) (rows : List Row) (acc : List (String × List Row)) :
    List (String × List Row) :=
  rows.foldl (fun a r => addToGroup a (jsString (jsGet r idx)) r) acc

/-- `buildIndex` (lines 126–140), restricted to its `irows` output: the
grouped object when the result and index are truthy, the rows are
non-empty and the first row owns the index column; the empty-list marker
(`none`) otherwise. -/
def buildIndexIrows (rows : List Row) (idx : String) :
    Option (List (String × List Row)) :=
  match rows with
  | [] => none
  | r :: _ => if idx != "" && hasKey r idx then some (groupRows idx rows []) else none

/-- Lookup of one group in the grouped result (a missing key reads as the
empty list). -/
def groupVal (g : List (String × List Row)) (k : String) : List Row :=
  match g.find? (fun kv => kv.1 == k) with
  | some kv => kv.2
  | none => []

/-! ## Helper lemmas -/

theorem isPrefixOf_cons_ne (p c : Char) (ps cs : List Char) (h : (p == c) = false) :
    List.isPrefixOf (p :: ps) (c :: cs) = false := by
  simp [List.isPrefixOf, h]

theorem replFirst_cons_of_ne (pat repl : List Char) (c : Char) (cs : List Char)
    (h : pat.isPrefixOf (c :: cs) = false) :
    replFirst pat repl (c :: cs) = c :: replFirst pat repl cs := by
  rw [replFirst, if_neg]
  simp [h]

/-- `replFirst` never matches the `SET ` pattern inside the eight-character
`UPDATE "` head, so that head is preserved. -/
theorem replFirst_update_head (repl l : List Char) :
    replFirst ("SET ".data) repl ("UPDATE \"".data ++ l)
      = "UPDATE \"".data ++ replFirst ("SET ".data) repl l := by
  show replFirst ("SET ".data) repl ('U' :: 'P' :: 'D' :: 'A' :: 'T' :: 'E' :: ' ' :: '"' :: l)
      = 'U' :: 'P' :: 'D' :: 'A' :: 'T' :: 'E' :: ' ' :: '"' :: replFirst ("SET ".data) repl l
  rw [replFirst_cons_of_ne _ _ _ _ (isPrefixOf_cons_ne _ _ _ _ (by decide))]
  rw [replFirst_cons_of_ne _ _ _ _ (isPrefixOf_cons_ne _ _ _ _ (by decide))]
  rw [replFirst_cons_of_ne _ _ _ _ (isPrefixOf_cons_ne _ _ _ _ (by decide))]
  rw [replFirst_cons_of_ne _ _ _ _ (isPrefixOf_cons_ne _ _ _ _ (by decide))]
  rw [replFirst_cons_of_ne _ _ _ _ (isPrefixOf_cons_ne _ _ _ _ (by decide))]
  rw [replFirst_cons_of_ne _ _ _ _ (isPrefixOf_cons_ne _ _ _ _ (by decide))]
  rw [replFirst_cons_of_ne _ _ _ _ (isPrefixOf_cons_ne _ _ _ _ (by decide))]
  rw [replFirst_cons_of_ne _ _ _ _ (isPrefixOf_cons_ne _ _ _ _ (by decide))]

/-- `replFirst` replaces exactly the first occurrence: a pattern occurrence
at the marked position is the one replaced, provided no occurrence starts
earlier (no occurrence lies inside `a ++ pat.dropLast`). -/
theorem replFirst_spec (pat repl : List Char) :
    ∀ (a b : List Char), ¬ (pat <:+: (a ++ pat.dropLast)) →
      replFirst pat repl (a ++ pat ++ b) = a ++ repl ++ b := by
  intro a
  induction a with
  | nil =>
    intro b h
    cases hp : pat with
    | nil => exact absurd (by simp [hp]) h
    | cons p ps =>
      subst hp
      simp only [List.nil_append, List.cons_append]
      rw [replFirst, if_pos]
      · rw [show p :: (ps ++ b) = (p :: ps) ++ b from rfl, List.drop_left]
      · exact List.isPrefixOf_iff_prefix.mpr (by simpa using List.prefix_append (p :: ps) b)
  | cons c a ih =>
    intro b h
    have hne : pat.isPrefixOf (c :: (a ++ (pat ++ b))) = false := by
      cases hq : pat.isPrefixOf (c :: (a ++ (pat ++ b))) with
      | false => rfl
      | true =>
        exfalso
        apply h
        have hp2 : pat <+: (c :: a) ++ (pat ++ b) := by
          simpa using List.isPrefixOf_iff_prefix.mp hq
        have hpre : (c :: a) ++ pat.dropLast <+: (c :: a) ++ (pat ++ b) :=
          (List.prefix_append_right_inj (c :: a)).mpr
            ((List.dropLast_prefix pat).trans (List.prefix_append pat b))
        have hlen : pat.length ≤ ((c :: a) ++ pat.dropLast).length := by
          simp [List.length_dropLast]
          omega
        exact (List.prefix_of_prefix_length_le hp2 hpre hlen).isInfix
    have h2 : ¬ (pat <:+: (a ++ pat.dropLast)) := by
      intro hinf
      have hx : pat <:+: c :: (a ++ pat.dropLast) := List.infix_cons hinf
      exact h (by simpa using hx)
    calc replFirst pat repl ((c :: a) ++ pat ++ b)
        = replFirst pat repl (c :: (a ++ (pat ++ b))) := by simp
      _ = c :: replFirst pat repl (a ++ (pat ++ b)) := replFirst_cons_of_ne _ _ _ _ hne
      _ = c :: (a ++ repl ++ b) := by rw [show a ++ (pat ++ b) = a ++ pat ++ b by simp, ih b h2]
      _ = (c :: a) ++ repl ++ b := by simp

theorem str_assoc (x y z : String) : x ++ y ++ z = x ++ (y ++ z) :=
  String.ext (by simp)

theorem transform_spec (a b : String)
    (hu : ("UPDATE".data) <:+: (a ++ ("SET " ++ b)).data)
    (hs : ¬ ("SET ".data <:+: (a.data ++ "SET".data))) :
    transform (a ++ ("SET " ++ b)) = a ++ ("SET modified = now(), " ++ b) := by
  unfold transform
  rw [if_pos hu]
  apply String.ext
  show replFirst ("SET ".data) ("SET modified = now(), ".data) (a ++ ("SET " ++ b)).data = _
  have h1 : (a ++ ("SET " ++ b)).data = a.data ++ "SET ".data ++ b.data := by simp
  rw [h1, replFirst_spec _ _ _ _ (by simpa using hs)]
  simp

theorem prefix_update_append (l : List Char) : "UPDATE".data <+: "UPDATE \"".data ++ l :=
  (show "UPDATE".data <+: "UPDATE \"".data by decide).trans (List.prefix_append _ _)

theorem isUpd_transform_update (rest : String) (args : List Value) :
    isUpd { sql := transform ("UPDATE \"" ++ rest), args := args } = true := by
  unfold transform
  rw [if_pos (List.IsPrefix.isInfix (by simpa using prefix_update_append rest.data))]
  unfold isUpd
  show ("UPDATE".data).isPrefixOf
      (replFirst ("SET ".data) ("SET modified = now(), ".data) ("UPDATE \"" ++ rest).data) = true
  rw [show ("UPDATE \"" ++ rest).data = "UPDATE \"".data ++ rest.data from rfl,
    replFirst_update_head]
  exact List.isPrefixOf_iff_prefix.mpr (prefix_update_append _)

theorem replFirst_headS (l : List Char) :
    ∃ m, replFirst ("SET ".data) ("SET modified = now(), ".data) ('S' :: l) = 'S' :: m := by
  rw [replFirst]
  by_cases hp : ("SET ".data).isPrefixOf ('S' :: l) = true
  · rw [if_pos hp]; exact ⟨_, rfl⟩
  · rw [if_neg hp]; exact ⟨_, rfl⟩

theorem isUpd_false_of_headS (s : String) (args : List Value) (l : List Char)
    (h : s.data = 'S' :: l) : isUpd { sql := s, args := args } = false := by
  unfold isUpd
  show ("UPDATE".data).isPrefixOf s.data = false
  rw [h]
  exact isPrefixOf_cons_ne 'U' 'S' _ _ (by decide)

theorem isUpd_transform_false_of_headS (s : String) (args : List Value) (l : List Char)
    (h : s.data = 'S' :: l) : isUpd { sql := transform s, args := args } = false := by
  unfold transform
  by_cases hu : ("UPDATE".data) <:+: s.data
  · rw [if_pos hu]
    obtain ⟨m, hm⟩ := replFirst_headS l
    refine isUpd_false_of_headS _ args m ?_
    show replFirst ("SET ".data) ("SET modified = now(), ".data) s.data = 'S' :: m
    rw [h, hm]
  · rw [if_neg hu]; exact isUpd_false_of_headS s args l h

example (table : String) : ∃ l, (schemaSql table).data = 'S' :: l := ⟨_, rfl⟩
example (cfg : Cfg) (table : String) (f filter : FieldMap) (ob : Option String) :
    ∃ l, (selectSql cfg table f filter ob).data = 'S' :: l := ⟨_, rfl⟩
example (cfg : Cfg) (table : String) (id : IdArg) (f : FieldMap) :
    ∃ l, (updateSql cfg table id f).1.data = 'U' :: l := ⟨_, rfl⟩

theorem sanitizeNC_no_upd (cfg : Cfg) (exec : Exec) (table : String) (fields : FieldMap) :
    ∀ st ∈ (sanitizeNCRun cfg exec table fields).1, isUpd st = false := by
  intro st hst
  simp only [sanitizeNCRun] at hst
  by_cases hs : cfg.sanitize
  · rw [if_pos hs] at hst
    cases hex : exec { sql := schemaSql table, args := [] } with
    | ok rows =>
      rw [hex] at hst
      simp only [List.mem_singleton] at hst
      subst hst
      exact isUpd_false_of_headS _ _ _ rfl
    | err e =>
      rw [hex] at hst
      simp only [List.mem_singleton] at hst
      subst hst
      exact isUpd_false_of_headS _ _ _ rfl
  · rw [if_neg hs] at hst
    simp at hst

theorem selectRun_no_upd (cfg : Cfg) (exec : Exec) (table : String) (filter : FieldMap)
    (ob : Option String) :
    ∀ st ∈ (selectRun cfg exec table filter ob).1, isUpd st = false := by
  intro st hst
  simp only [selectRun] at hst
  cases hx : (sanitizeNCRun cfg exec table filter).2 with
  | resolved sr =>
    rw [hx] at hst
    dsimp only at hst
    cases hex : exec ⟨transform (selectSql cfg table sr.fields filter ob),
        (selectMatch cfg sr.fields filter).2⟩ with
    | ok rows =>
      rw [hex] at hst
      dsimp only at hst
      rcases List.mem_append.mp hst with hl | hr
      · exact sanitizeNC_no_upd cfg exec table filter st hl
      · simp only [List.mem_singleton] at hr
        subst hr
        exact isUpd_transform_false_of_headS _ _ _ rfl
    | err e =>
      rw [hex] at hst
      dsimp only at hst
      rcases List.mem_append.mp hst with hl | hr
      · exact sanitizeNC_no_upd cfg exec table filter st hl
      · simp only [List.mem_singleton] at hr
        subst hr
        exact isUpd_transform_false_of_headS _ _ _ rfl
  | rejected e =>
    rw [hx] at hst
    dsimp only at hst
    exact sanitizeNC_no_upd cfg exec table filter st hst
  | hung =>
    rw [hx] at hst
    dsimp only at hst
    exact sanitizeNC_no_upd cfg exec table filter st hst

theorem sanitizeFull_no_upd (cfg : Cfg) (exec : Exec) (table : String) (fields : FieldMap)
    (cid : Option IdArg) :
    ∀ st ∈ (sanitizeFullRun cfg exec table fields cid).1, isUpd st = false := by
  intro st hst
  simp only [sanitizeFullRun] at hst
  by_cases hs : cfg.sanitize
  · rw [if_pos hs] at hst
    cases hex : exec { sql := schemaSql table, args := [] } with
    | err e =>
      rw [hex] at hst
      simp only [List.mem_singleton] at hst
      subst hst
      exact isUpd_false_of_headS _ _ _ rfl
    | ok columns =>
      rw [hex] at hst
      dsimp only at hst
      cases cid with
      | none =>
        simp only [List.mem_singleton] at hst
        subst hst
        exact isUpd_false_of_headS _ _ _ rfl
      | some c =>
        dsimp only at hst
        by_cases ht : idTruthy c
        · rw [if_pos ht] at hst
          cases hy : (selectOneRun cfg exec table [(table ++ "id", idToValue c)]).2 with
          | resolved oldData =>
            rw [hy] at hst
            dsimp only at hst
            rcases List.mem_cons.mp hst with h0 | h1
            · subst h0; exact isUpd_false_of_headS _ _ _ rfl
            · exact selectRun_no_upd cfg exec table _ none st h1
          | rejected e2 =>
            rw [hy] at hst
            dsimp only at hst
            rcases List.mem_cons.mp hst with h0 | h1
            · subst h0; exact isUpd_false_of_headS _ _ _ rfl
            · exact selectRun_no_upd cfg exec table _ none st h1
          | hung =>
            rw [hy] at hst
            dsimp only at hst
            rcases List.mem_cons.mp hst with h0 | h1
            · subst h0; exact isUpd_false_of_headS _ _ _ rfl
            · exact selectRun_no_upd cfg exec table _ none st h1
        · rw [if_neg ht] at hst
          simp only [List.mem_singleton] at hst
          subst hst
          exact isUpd_false_of_headS _ _ _ rfl
  · rw [if_neg hs] at hst
    simp at hst

theorem countP_isUpd_sanitizeFull (cfg : Cfg) (exec : Exec) (table : String)
    (fields : FieldMap) (cid : Option IdArg) :
    (sanitizeFullRun cfg exec table fields cid).1.countP isUpd = 0 := by
  rw [List.countP_eq_length_filter, List.length_eq_zero, List.filter_eq_nil]
  intro a ha
  simp [sanitizeFull_no_upd cfg exec table fields cid a ha]

/-! ## Claim theorems -/

/-- Lemma: a key absent from a map reads as `undefined`. -/
theorem jsGet_of_hasKey_false (m : FieldMap) (k : String) (h : hasKey m k = false) :
    jsGet m k = vUndefined := by
  unfold jsGet
  rw [List.find?_eq_none.mpr]
  intro x hx
  have := (List.any_eq_false.mp h) x hx
  simpa using this

/-- The source configuration constants: `dbStatusField = 'datastateid'`,
all three status values `null`, sanitization disabled. -/
def cfgC1 : Cfg := ⟨some "datastateid", ⟨vNull, vNull, vNull⟩, false⟩

/-- A driver that answers every statement with zero rows. -/
def execC1 : Exec := fun _ => .ok []

/-- C1: the claim states that a composite-key `update` joins its
`column = $n` pairs with `AND`.  The code appends each pair with no
separator at all (line 231 concatenates `key = $n` fragments directly),
producing `WHERE a = $3b = $4` — invalid SQL.  This theorem evaluates the
code at the failing input `update("t", {a: 1, b: 2}, {x: 9})`. -/
theorem C1_composite_update_where_lacks_and :
    (updateRun cfgC1 execC1 "t" (.composite [("a", vInt 1), ("b", vInt 2)])
        [("x", vInt 9)] false).1
      = [⟨"UPDATE \"t\" SET modified = now(), x = $1, datastateid = $2 WHERE a = $3b = $4 RETURNING *",
          [vInt 9, vNull, vInt 1, vInt 2]⟩] := rfl

/-- Status-column configuration with distinct, non-null status values, to
make the `Deleted`/`Delete` confusion observable. -/
def cfgC6 : Cfg := ⟨some "datastateid", ⟨vInt 1, vInt 2, vInt 3⟩, false⟩

/-- The same configuration with the status column disabled. -/
def cfgC6n : Cfg := ⟨none, ⟨vInt 1, vInt 2, vInt 3⟩, false⟩

/-- A driver that answers every statement with zero rows. -/
def execC6 : Exec := fun _ => .ok []

/-- C6: the soft-delete path reads `dbStatusValues.Deleted`, but the
declared enum only defines `Delete` (source lines 22–26 vs 392), so the
generated UPDATE writes the text `undefined` — not the Deleted status
value (here `2`).  The structural parts of the claim (UPDATE when a status
column is configured, DELETE otherwise, `idField` defaulting to
`table + "id"`, resolution to `true`) are visible in the same evaluation. -/
theorem C6_delete_writes_undefined :
    deleteRun cfgC6 execC6 "users" (vInt 7) ""
        = ([⟨"UPDATE \"users\" SET datastateid = undefined WHERE usersid = 7", []⟩],
           .resolved true)
      ∧ deleteRun cfgC6n execC6 "users" (vInt 7) ""
        = ([⟨"DELETE FROM \"users\" WHERE usersid = 7", []⟩], .resolved true) :=
  ⟨rfl, rfl⟩

/-- C2: when a status column is configured and the filter does not set it,
the `select` match list is the filter equalities followed by the
`status = Active` predicate, and the generated SQL is exactly the WHERE
joined by ` AND ` of those fragments; when the status column is disabled,
the match list is the filter equalities alone, for every filter. -/
theorem C2_select_implicit_active_status (cfg : Cfg) (sf table : String)
    (fields filter : FieldMap) (ob : Option String)
    (hcfg : cfg.statusField = some sf) (habs : hasKey filter sf = false) :
    (selectMatch cfg fields filter).1
        = (matchPairs fields 1).1 ++ [sf ++ " = " ++ jsString cfg.statusValues.Active]
      ∧ selectSql cfg table fields filter ob
        = "SELECT * FROM \"" ++ table ++ "\""
            ++ (" WHERE " ++ String.intercalate " AND "
                  ((matchPairs fields 1).1 ++ [sf ++ " = " ++ jsString cfg.statusValues.Active]))
            ++ (match ob with
                | some o => if o == "" then "" else " ORDER BY " ++ o
                | none => "")
      ∧ (∀ (cfg2 : Cfg) (fields2 filter2 : FieldMap), cfg2.statusField = none →
          (selectMatch cfg2 fields2 filter2).1 = (matchPairs fields2 1).1) := by
  have hg : truthy (jsGet filter sf) = false := by
    rw [jsGet_of_hasKey_false filter sf habs]
    rfl
  refine ⟨?_, ?_, ?_⟩
  · simp [selectMatch, hcfg, hg]
  · simp [selectSql, selectMatch, hcfg, hg]
  · intro cfg2 f2 fl2 h2
    simp [selectMatch, h2]

/-- Witness for C2 at a concrete call: table `users`, filter `{e: 4}`, the
source status column, Active value `null`. -/
theorem C2_witness :
    ((⟨some "datastateid", ⟨vNull, vNull, vNull⟩, false⟩ : Cfg).statusField
        = some "datastateid"
      ∧ hasKey [("e", vInt 4)] "datastateid" = false)
    ∧ (selectMatch ⟨some "datastateid", ⟨vNull, vNull, vNull⟩, false⟩
          [("e", vInt 4)] [("e", vInt 4)]).1
        = (matchPairs [("e", vInt 4)] 1).1 ++ ["datastateid" ++ " = " ++ jsString vNull] :=
  ⟨⟨rfl, rfl⟩,
   (C2_select_implicit_active_status ⟨some "datastateid", ⟨vNull, vNull, vNull⟩, false⟩
     "datastateid" "users" [("e", vInt 4)] [("e", vInt 4)] none rfl rfl).1⟩

/-- Status configuration with sanitization enabled and Active value `1`. -/
def cfgC10 : Cfg := ⟨some "datastateid", ⟨vInt 1, vInt 2, vInt 3⟩, true⟩

/-- Schema in which the status column is a `bit` column. -/
def schemaC10 : List Row := [[("column_name", vStr "datastateid"), ("data_type", vStr "bit")]]

/-- Driver returning the `bit` schema for the metadata query. -/
def execC10 : Exec := fun s => if s.sql == schemaSql "t" then .ok schemaC10 else .ok []

/-- C10 counterexample: the claim promises an Active-status assignment for
every update whose supplied data does not set the status column to a
truthy value.  With sanitization enabled and a `bit` status column, the
supplied falsy `0` is coerced to the string `'0'` — which is truthy — so
the generated SET clause assigns `'0'`, not the Active value `1`:
the executed UPDATE sets `datastateid = $1` with argument `'0'` and
carries no Active assignment. -/
theorem C10_counterexample :
    truthy (jsGet [("datastateid", vInt 0)] "datastateid") = false
      ∧ (updateRun cfgC10 execC10 "t" (.scalar (vInt 5)) [("datastateid", vInt 0)] false).1
        = [⟨schemaSql "t", []⟩,
           ⟨"UPDATE \"t\" SET modified = now(), datastateid = $1 WHERE tid = $2 RETURNING *",
            [vStr "0", vInt 5]⟩]
      ∧ vStr "0" ≠ cfgC10.statusValues.Active := by
  refine ⟨rfl, rfl, ?_⟩
  simp [cfgC10]

/-- C10 amended: for every update whose *sanitized* field map does not
carry a truthy value for the configured status column, the built SET
clause appends a parameterized assignment of the Active status value (and
appends nothing when the sanitized value is truthy).  When sanitization is
disabled the sanitized map is the supplied data, recovering the claim as
written. -/
theorem C10_amended (cfg : Cfg) (sf : String) (fields : FieldMap)
    (hcfg : cfg.statusField = some sf) :
    (truthy (jsGet fields sf) = false →
      updateSet cfg fields
        = ((matchPairs fields 1).1
              ++ [sf ++ " = $" ++ toString ((matchPairs fields 1).1.length + 1)],
           (matchPairs fields 1).2 ++ [cfg.statusValues.Active]))
    ∧ (truthy (jsGet fields sf) = true → updateSet cfg fields = matchPairs fields 1) := by
  constructor <;> intro h <;> simp [updateSet, hcfg, h]

/-- Witness for C10 amended: a data map that omits the status column gets
the Active assignment appended. -/
theorem C10_amended_witness :
    ((⟨some "datastateid", ⟨vInt 1, vInt 2, vInt 3⟩, false⟩ : Cfg).statusField
        = some "datastateid"
      ∧ truthy (jsGet [("x", vInt 9)] "datastateid") = false)
    ∧ updateSet ⟨some "datastateid", ⟨vInt 1, vInt 2, vInt 3⟩, false⟩ [("x", vInt 9)]
        = ((matchPairs [("x", vInt 9)] 1).1
              ++ ["datastateid" ++ " = $" ++ toString ((matchPairs [("x", vInt 9)] 1).1.length + 1)],
           (matchPairs [("x", vInt 9)] 1).2 ++ [vInt 1]) :=
  ⟨⟨rfl, rfl⟩,
   (C10_amended ⟨some "datastateid", ⟨vInt 1, vInt 2, vInt 3⟩, false⟩ "datastateid"
      [("x", vInt 9)] rfl).1 rfl⟩

/-- Appending a row to a group map changes exactly the group of its key. -/
theorem groupVal_addToGroup (g : List (String × List Row)) (k0 k : String) (r : Row) :
    groupVal (addToGroup g k0 r) k = groupVal g k ++ (if k0 == k then [r] else []) := by
  induction g with
  | nil =>
    cases e : (k0 == k) <;> simp [addToGroup, groupVal, List.find?, e]
  | cons a t ih =>
    obtain ⟨k1, l⟩ := a
    cases e1 : (k1 == k0) with
    | true =>
      have h1 : k1 = k0 := by simpa using e1
      subst h1
      cases e2 : (k1 == k) <;> simp [addToGroup, groupVal, List.find?, e2]
    | false =>
      cases e2 : (k1 == k) with
      | true =>
        have h2 : k1 = k := by simpa using e2
        subst h2
        have e0 : (k0 == k1) = false := by
          cases e0 : (k0 == k1) with
          | false => rfl
          | true =>
            exfalso
            have h0 : k0 = k1 := by simpa using e0
            subst h0
            simp at e1
        simp [addToGroup, groupVal, List.find?, e1, e0]
      | false =>
        have ha : addToGroup ((k1, l) :: t) k0 r = (k1, l) :: addToGroup t k0 r := by
          simp [addToGroup, e1]
        have hg1 : groupVal ((k1, l) :: addToGroup t k0 r) k = groupVal (addToGroup t k0 r) k := by
          simp [groupVal, List.find?, e2]
        have hg2 : groupVal ((k1, l) :: t) k = groupVal t k := by
          simp [groupVal, List.find?, e2]
        rw [ha, hg1, hg2, ih]

/-- The grouping fold collects, for every key, exactly the rows whose
column value renders to that key, in original order. -/
theorem groupVal_groupRows (idx : String) (rows : List Row) :
    ∀ (acc : List (String × List Row)) (k : String),
      groupVal (groupRows idx rows acc) k
        = groupVal acc k ++ rows.filter (fun r => jsString (jsGet r idx) == k) := by
  induction rows with
  | nil =>
    intro acc k
    simp [groupRows]
  | cons r t ih =>
    intro acc k
    simp only [groupRows, List.foldl_cons] at *
    rw [ih, groupVal_addToGroup, List.filter_cons]
    by_cases h : (jsString (jsGet r idx) == k) = true
    · simp [h]
    · simp [Bool.of_not_eq_true h]

/-- C9 amended: for a non-empty row list over a truthy index column owned
by every row, `buildIndex` produces the grouped object, and each group key
(the string rendering of the column value) maps to exactly the rows whose
column value has that rendering, in their original order.  Distinct values
with the same rendering (for example the number `1` and the string `"1"`)
share one group, because JavaScript object keys are strings. -/
theorem C9_grouped_indexing (rows : List Row) (idx : String) (r0 : Row) (rest : List Row)
    (hrows : rows = r0 :: rest) (hidx : idx ≠ "")
    (hkeys : ∀ r ∈ rows, hasKey r idx = true) :
    buildIndexIrows rows idx = some (groupRows idx rows [])
      ∧ ∀ k, groupVal (groupRows idx rows []) k
          = rows.filter (fun r => jsString (jsGet r idx) == k) := by
  constructor
  · subst hrows
    have h0 : hasKey r0 idx = true := hkeys r0 (by simp)
    simp [buildIndexIrows, h0, bne, hidx]
  · intro k
    rw [groupVal_groupRows]
    simp [groupVal, List.find?]

/-- Witness for C9 amended at the rows of the specification example. -/
theorem C9_grouped_indexing_witness :
    (([[("cat", vStr "x"), ("id", vInt 1)], [("cat", vStr "x"), ("id", vInt 2)],
        [("cat", vStr "y"), ("id", vInt 3)]] : List Row)
        = [("cat", vStr "x"), ("id", vInt 1)]
            :: [[("cat", vStr "x"), ("id", vInt 2)], [("cat", vStr "y"), ("id", vInt 3)]]
      ∧ ("cat" : String) ≠ "")
    ∧ buildIndexIrows
        [[("cat", vStr "x"), ("id", vInt 1)], [("cat", vStr "x"), ("id", vInt 2)],
         [("cat", vStr "y"), ("id", vInt 3)]] "cat"
        = some (groupRows "cat"
            [[("cat", vStr "x"), ("id", vInt 1)], [("cat", vStr "x"), ("id", vInt 2)],
             [("cat", vStr "y"), ("id", vInt 3)]] []) :=
  ⟨⟨rfl, by decide⟩,
   (C9_grouped_indexing _ "cat" [("cat", vStr "x"), ("id", vInt 1)]
      [[("cat", vStr "x"), ("id", vInt 2)], [("cat", vStr "y"), ("id", vInt 3)]] rfl
      (by decide) (by intro r hr; fin_cases hr <;> rfl)).1⟩

/-- C9 counterexample: the claim promises that each *distinct value* of the
index column maps to exactly the rows having that value.  The number `1`
and the string `"1"` are distinct values, yet both rows land in the single
group keyed `"1"`, because the JavaScript object key is the string
rendering of the value. -/
theorem C9_counterexample :
    buildIndexIrows
        [[("cat", vInt 1), ("id", vInt 1)], [("cat", vStr "1"), ("id", vInt 2)]] "cat"
      = some [("1", [[("cat", vInt 1), ("id", vInt 1)], [("cat", vStr "1"), ("id", vInt 2)]])]
      ∧ jsGet [("cat", vInt 1), ("id", vInt 1)] "cat"
        ≠ jsGet [("cat", vStr "1"), ("id", vInt 2)] "cat" := by
  refine ⟨rfl, ?_⟩
  show (vInt 1 : Value) ≠ vStr "1"
  intro h
  exact nomatch h

/-- The sanitize loop keeps exactly the schema-present keys, coercing each
kept value by its declared type. -/
theorem sanitizeCore_fst (columns : List Row) (oldData : Row) (compare : Bool) :
    ∀ fields : FieldMap,
      (sanitizeCore columns oldData compare fields).1
        = fields.filterMap (fun kv =>
            match findCol columns kv.1 with
            | some col => some (kv.1, coerce (jsGet col "data_type") kv.2)
            | none => none) := by
  intro fields
  induction fields with
  | nil => rfl
  | cons kv t ih =>
    obtain ⟨k, v⟩ := kv
    simp only [sanitizeCore, List.filterMap_cons]
    cases h : findCol columns k <;> simp [h, ih]

/-- C8: with sanitization disabled, `sanitizeFields` is an identity
pass-through — no statement, the fields unchanged, a null `matches`
signal — for every table, every `compareId` and every driver; with
sanitization enabled, the resolved field map keeps exactly the keys found
among the schema columns (values coerced by declared type) and drops every
other key, and with the default `compareId` the run is exactly the schema
lookup followed by that resolution. -/
theorem C8_sanitize_fields (cfg : Cfg) (exec : Exec) (table : String) (fields : FieldMap)
    (cid : Option IdArg) :
    (cfg.sanitize = false →
        sanitizeFullRun cfg exec table fields cid
          = ([], .resolved { fields := fields, matchesV := none }))
      ∧ (∀ (columns : List Row) (oldData : Row) (compare : Bool),
          (sanitizeWithColumns columns oldData compare fields).fields
            = fields.filterMap (fun kv =>
                match findCol columns kv.1 with
                | some col => some (kv.1, coerce (jsGet col "data_type") kv.2)
                | none => none))
      ∧ (cfg.sanitize = true → ∀ columns : List Row,
          exec ⟨schemaSql table, []⟩ = .ok columns →
            sanitizeFullRun cfg exec table fields none
              = ([⟨schemaSql table, []⟩],
                 .resolved (sanitizeWithColumns columns [] false fields))) := by
  refine ⟨?_, ?_, ?_⟩
  · intro h
    simp [sanitizeFullRun, h]
  · intro columns oldData compare
    simp [sanitizeWithColumns, sanitizeCore_fst]
  · intro h columns hex
    simp [sanitizeFullRun, h, hex]

/-- Witness for C8 at the specification example: `bogus_col` is absent
from the schema of `orders` and is dropped, `qty` is kept. -/
theorem C8_sanitize_fields_witness :
    ((⟨some "datastateid", ⟨vNull, vNull, vNull⟩, false⟩ : Cfg).sanitize = false
      ∧ sanitizeFullRun ⟨some "datastateid", ⟨vNull, vNull, vNull⟩, false⟩ (fun _ => .ok [])
          "orders" [("bogus_col", vInt 1), ("qty", vInt 5)] none
        = ([], .resolved { fields := [("bogus_col", vInt 1), ("qty", vInt 5)], matchesV := none }))
    ∧ (sanitizeWithColumns [[("column_name", vStr "qty"), ("data_type", vStr "integer")]]
          [] false [("bogus_col", vInt 1), ("qty", vInt 5)]).fields
      = [("bogus_col", vInt 1), ("qty", vInt 5)].filterMap (fun kv =>
          match findCol [[("column_name", vStr "qty"), ("data_type", vStr "integer")]] kv.1 with
          | some col => some (kv.1, coerce (jsGet col "data_type") kv.2)
          | none => none) :=
  ⟨⟨rfl,
    (C8_sanitize_fields ⟨some "datastateid", ⟨vNull, vNull, vNull⟩, false⟩ (fun _ => .ok [])
        "orders" [("bogus_col", vInt 1), ("qty", vInt 5)] none).1 rfl⟩,
   (C8_sanitize_fields ⟨some "datastateid", ⟨vNull, vNull, vNull⟩, true⟩ (fun _ => .ok [])
        "orders" [("bogus_col", vInt 1), ("qty", vInt 5)] none).2.1
     [[("column_name", vStr "qty"), ("data_type", vStr "integer")]] [] false⟩

/-- Sanitization enabled, with the source status configuration. -/
def cfgC7 : Cfg := ⟨some "datastateid", ⟨vNull, vNull, vNull⟩, true⟩

/-- A driver for which every statement fails. -/
def execC7 : Exec := fun _ => .err ⟨"connection lost"⟩

/-- C7 counterexample: the claim says every failing execution yields a
rejected result carrying the original arguments and that the returned
promise always settles.  With sanitization enabled and a failing schema
lookup, the callback-style `query` branch throws a TypeError inside
`buildIndex` (line 137, `res` is undefined) before the `sanitizeFields`
callback runs — and even a rejection would find no handler on `select`'s
`.then` (line 151) — so the returned promise never resolves nor rejects:
the outcome is `hung` after the single failed schema statement. -/
theorem C7_counterexample :
    selectRun cfgC7 execC7 "t" [] none
      = ([⟨schemaSql "t", []⟩], Outcome.hung) := rfl

/-- C7 amended: failures are never retried — each failing operation
executes its statement exactly once — but how they surface depends on the
path.  Through the args-style `query` branch (whose error path calls the
callback directly, without `buildIndex`): `update` and `insert` reject
the driver error with the executed statement's positional arguments
attached, while `select` and `selectOne` reject a fresh `Failed select()`
error that does not carry the arguments.  Through the callback-style
branch, the error path throws a TypeError inside `buildIndex` (line 137)
before the callback runs, so a failing `delete` never settles at all, and
with sanitization enabled a failing schema lookup leaves `select`,
`update` and `insert` (and through them `selectOne`) permanently
unsettled. -/
theorem C7_failure_semantics (cfg : Cfg) (exec : Exec) (table : String)
    (filter data : FieldMap) (ob : Option String) (id : IdArg) (status : Bool)
    (idv : Value) (idF : String) (conflict : ConflictArg) (cu : List String) (e : DbErr)
    (hs : cfg.sanitize = false) :
    (exec ⟨transform (selectSql cfg table filter filter ob),
          (selectMatch cfg filter filter).2⟩ = .err e →
        selectRun cfg exec table filter ob
          = ([⟨transform (selectSql cfg table filter filter ob),
               (selectMatch cfg filter filter).2⟩],
             .rejected ⟨"Failed select()", none⟩))
      ∧ (exec ⟨transform (selectSql cfg table filter filter none),
            (selectMatch cfg filter filter).2⟩ = .err e →
        selectOneRun cfg exec table filter
          = ([⟨transform (selectSql cfg table filter filter none),
               (selectMatch cfg filter filter).2⟩],
             .rejected ⟨"Failed select()", none⟩))
      ∧ (exec ⟨transform (updateSql cfg table id data).1, (updateSql cfg table id data).2⟩
            = .err e →
        updateRun cfg exec table id data status
          = ([⟨transform (updateSql cfg table id data).1, (updateSql cfg table id data).2⟩],
             .rejected ⟨e.msg, some (updateSql cfg table id data).2⟩))
      ∧ (exec ⟨transform (insertSql cfg table data conflict cu).1,
            (insertSql cfg table data conflict cu).2⟩ = .err e →
        insertRun cfg exec table data conflict cu
          = ([⟨transform (insertSql cfg table data conflict cu).1,
               (insertSql cfg table data conflict cu).2⟩],
             .rejected ⟨e.msg, some (insertSql cfg table data conflict cu).2⟩))
      ∧ (exec ⟨deleteSql cfg table idv idF, []⟩ = .err e →
        deleteRun cfg exec table idv idF
          = ([⟨deleteSql cfg table idv idF, []⟩], .hung))
      ∧ (∀ (cfg2 : Cfg) (exec2 : Exec), cfg2.sanitize = true →
          exec2 ⟨schemaSql table, []⟩ = .err e →
            selectRun cfg2 exec2 table filter ob = ([⟨schemaSql table, []⟩], .hung)
            ∧ updateRun cfg2 exec2 table id data status = ([⟨schemaSql table, []⟩], .hung)
            ∧ insertRun cfg2 exec2 table data conflict cu
              = ([⟨schemaSql table, []⟩], .hung)) := by
  refine ⟨?_, ?_, ?_, ?_, ?_, ?_⟩
  · intro hex
    simp [selectRun, sanitizeNCRun, hs, hex]
  · intro hex
    simp [selectOneRun, selectRun, sanitizeNCRun, hs, hex]
  · intro hex
    simp [updateRun, sanitizeFullRun, hs, hex]
  · intro hex
    simp [insertRun, sanitizeNCRun, hs, hex]
  · intro hex
    simp [deleteRun, hex]
  · intro cfg2 exec2 h2 hex
    refine ⟨?_, ?_, ?_⟩
    · simp [selectRun, sanitizeNCRun, h2, hex]
    · simp [updateRun, sanitizeFullRun, h2, hex]
    · simp [insertRun, sanitizeNCRun, h2, hex]

/-- Witness for C7 amended: sanitize off, a failing driver; the `update`
rejection clause and the `delete` hang clause of the conjunction
instantiated at concrete calls. -/
theorem C7_failure_semantics_witness :
    ((⟨some "datastateid", ⟨vNull, vNull, vNull⟩, false⟩ : Cfg).sanitize = false
      ∧ (fun (_ : Stmt) => ExecResult.err ⟨"boom"⟩)
          (⟨transform (updateSql ⟨some "datastateid", ⟨vNull, vNull, vNull⟩, false⟩
              "t" (.scalar (vInt 1)) [("x", vInt 9)]).1,
            (updateSql ⟨some "datastateid", ⟨vNull, vNull, vNull⟩, false⟩
              "t" (.scalar (vInt 1)) [("x", vInt 9)]).2⟩)
        = .err ⟨"boom"⟩)
    ∧ updateRun ⟨some "datastateid", ⟨vNull, vNull, vNull⟩, false⟩
        (fun _ => ExecResult.err ⟨"boom"⟩) "t" (.scalar (vInt 1)) [("x", vInt 9)] false
      = ([⟨transform (updateSql ⟨some "datastateid", ⟨vNull, vNull, vNull⟩, false⟩
              "t" (.scalar (vInt 1)) [("x", vInt 9)]).1,
           (updateSql ⟨some "datastateid", ⟨vNull, vNull, vNull⟩, false⟩
              "t" (.scalar (vInt 1)) [("x", vInt 9)]).2⟩],
         .rejected ⟨"boom",
           some (updateSql ⟨some "datastateid", ⟨vNull, vNull, vNull⟩, false⟩
              "t" (.scalar (vInt 1)) [("x", vInt 9)]).2⟩)
    ∧ deleteRun ⟨some "datastateid", ⟨vNull, vNull, vNull⟩, false⟩
        (fun _ => ExecResult.err ⟨"boom"⟩) "t" (vInt 3) ""
      = ([⟨deleteSql ⟨some "datastateid", ⟨vNull, vNull, vNull⟩, false⟩ "t" (vInt 3) "", []⟩],
         .hung) :=
  ⟨⟨rfl, rfl⟩,
   (C7_failure_semantics ⟨some "datastateid", ⟨vNull, vNull, vNull⟩, false⟩
      (fun _ => ExecResult.err ⟨"boom"⟩) "t" [] [("x", vInt 9)] none (.scalar (vInt 1)) false
      (vInt 3) "" .cnull [] ⟨"boom"⟩ rfl).2.2.1 rfl,
   (C7_failure_semantics ⟨some "datastateid", ⟨vNull, vNull, vNull⟩, false⟩
      (fun _ => ExecResult.err ⟨"boom"⟩) "t" [] [("x", vInt 9)] none (.scalar (vInt 1)) false
      (vInt 3) "" .cnull [] ⟨"boom"⟩ rfl).2.2.2.2.1 rfl⟩

/-- The source configuration (status column, all-null values, sanitize
off). -/
def cfgC4 : Cfg := ⟨some "datastateid", ⟨vNull, vNull, vNull⟩, false⟩

/-- A driver returning one row with the `tid` key. -/
def execC4 : Exec := fun _ => .ok [[("tid", vInt 1)]]

/-- C4 counterexample: the claim says the executed upsert's DO UPDATE SET
assigns exactly the `conflictUpdate` columns plus the status column, and
nothing else.  But `query` (lines 99–100) matches `UPDATE` inside
`DO UPDATE` and splices `modified = now(), ` after the first `SET ` — which
is the one of the DO UPDATE SET clause — so the executed SQL assigns
`modified` as well, and differs from the claimed text. -/
theorem C4_counterexample :
    (insertRun cfgC4 execC4 "t" [("a", vInt 1)] (.carr ["a"]) ["a"]).1
        = [⟨"INSERT INTO \"t\" (a) VALUES ($1)  ON CONFLICT (a) DO UPDATE SET modified = now(), a = EXCLUDED.a, datastateid = null RETURNING tid",
            [vInt 1]⟩]
      ∧ ("INSERT INTO \"t\" (a) VALUES ($1)  ON CONFLICT (a) DO UPDATE SET modified = now(), a = EXCLUDED.a, datastateid = null RETURNING tid"
          : String)
        ≠ "INSERT INTO \"t\" (a) VALUES ($1)  ON CONFLICT (a) DO UPDATE SET a = EXCLUDED.a, datastateid = null RETURNING tid" := by
  refine ⟨rfl, ?_⟩
  decide

/-- The built upsert SQL, recast around the `SET ` of its DO UPDATE
clause. -/
theorem insertSql_set_split (cfg : Cfg) (table : String) (fields : FieldMap)
    (cu : List String) (cols : List String) (hcols : cols ≠ []) :
    (insertSql cfg table fields (.carr cols) cu).1
      = ("INSERT INTO \"" ++ table ++ "\" (" ++ String.intercalate "," (insertCols fields 1).1
          ++ ") VALUES (" ++ String.intercalate "," (insertCols fields 1).2.1 ++ ") "
          ++ (" ON CONFLICT (" ++ String.intercalate "," cols ++ ") DO UPDATE "))
        ++ ("SET "
          ++ (String.intercalate ", " (doUpdates cfg (insertCols fields 1).1 cu) ++ " "
              ++ ("RETURNING " ++ table ++ "id"))) := by
  have hlen : (cols.length != 0) = true := by
    simp [bne_iff_ne]
    intro h
    exact hcols h
  apply String.ext
  simp only [insertSql, conflictSql, hlen, if_pos, String.data_append, List.append_assoc]
  rfl

/-- A string ending in `) DO UPDATE ` followed by `SET ...` contains
`UPDATE`. -/
theorem update_infix_doUpdate (base c B : String) :
    ("UPDATE".data)
      <:+: ((base ++ (" ON CONFLICT (" ++ c ++ ") DO UPDATE ")) ++ ("SET " ++ B)).data :=
  ⟨base.data ++ (" ON CONFLICT (".data ++ (c.data ++ ") DO ".data)),
   " ".data ++ ("SET " ++ B).data, by
    simp only [String.data_append, List.append_assoc]
    rfl⟩

/-- C4 amended: with no conflict argument the executed INSERT is exactly
`INSERT INTO ... VALUES ... RETURNING <table>id` — no ON CONFLICT fragment
is emitted (the side condition excludes a pathological table or column
name containing `UPDATE`, which alone could trigger the timestamp
splice).  With a non-empty conflict-column list, the executed SQL carries
`ON CONFLICT (<cols>)` with exactly those columns, and its DO UPDATE SET
assigns `modified = now()` first — spliced in by `query` — followed by
exactly the `conflictUpdate` columns plus the Active-status column when
configured and absent from the inserted names (`doUpdates`), and nothing
else (the side condition excludes an earlier `SET ` occurrence among the
names). -/
theorem C4_on_conflict (cfg : Cfg) (table : String) (fields : FieldMap)
    (cu : List String) (cols : List String) :
    (¬ (("UPDATE".data) <:+: (insertSql cfg table fields .cnull cu).1.data) →
        transform (insertSql cfg table fields .cnull cu).1
          = "INSERT INTO \"" ++ table ++ "\" (" ++ String.intercalate "," (insertCols fields 1).1
              ++ ") VALUES (" ++ String.intercalate "," (insertCols fields 1).2.1 ++ ") "
              ++ "RETURNING " ++ table ++ "id")
      ∧ (cols ≠ [] →
        ¬ (("SET ".data)
            <:+: (("INSERT INTO \"" ++ table ++ "\" ("
                    ++ String.intercalate "," (insertCols fields 1).1
                    ++ ") VALUES (" ++ String.intercalate "," (insertCols fields 1).2.1 ++ ") "
                    ++ (" ON CONFLICT (" ++ String.intercalate "," cols ++ ") DO UPDATE ")).data
                  ++ "SET".data)) →
        transform (insertSql cfg table fields (.carr cols) cu).1
          = ("INSERT INTO \"" ++ table ++ "\" (" ++ String.intercalate "," (insertCols fields 1).1
              ++ ") VALUES (" ++ String.intercalate "," (insertCols fields 1).2.1 ++ ") "
              ++ (" ON CONFLICT (" ++ String.intercalate "," cols ++ ") DO UPDATE "))
            ++ ("SET modified = now(), "
              ++ (String.intercalate ", " (doUpdates cfg (insertCols fields 1).1 cu) ++ " "
                  ++ ("RETURNING " ++ table ++ "id")))) := by
  constructor
  · intro hno
    rw [transform, if_neg hno]
    apply String.ext
    simp only [insertSql, conflictSql, String.data_append, List.append_assoc]
    rfl
  · intro hcols hset
    rw [insertSql_set_split cfg table fields cu cols hcols]
    exact transform_spec _ _ (update_infix_doUpdate _ _ _) hset

/-- Witness for C4 amended at a concrete upsert and a concrete plain
insert. -/
theorem C4_on_conflict_witness :
    (¬ (("UPDATE".data) <:+: (insertSql cfgC4 "t" [("a", vInt 1)] .cnull ["a"]).1.data)
      ∧ (["a"] : List String) ≠ [])
    ∧ transform (insertSql cfgC4 "t" [("a", vInt 1)] .cnull ["a"]).1
        = "INSERT INTO \"" ++ "t" ++ "\" ("
            ++ String.intercalate "," (insertCols [("a", vInt 1)] 1).1
            ++ ") VALUES (" ++ String.intercalate "," (insertCols [("a", vInt 1)] 1).2.1 ++ ") "
            ++ "RETURNING " ++ "t" ++ "id"
    ∧ transform (insertSql cfgC4 "t" [("a", vInt 1)] (.carr ["a"]) ["a"]).1
        = ("INSERT INTO \"" ++ "t" ++ "\" ("
            ++ String.intercalate "," (insertCols [("a", vInt 1)] 1).1
            ++ ") VALUES (" ++ String.intercalate "," (insertCols [("a", vInt 1)] 1).2.1 ++ ") "
            ++ (" ON CONFLICT (" ++ String.intercalate "," ["a"] ++ ") DO UPDATE "))
          ++ ("SET modified = now(), "
            ++ (String.intercalate ", " (doUpdates cfgC4 (insertCols [("a", vInt 1)] 1).1 ["a"])
                ++ " " ++ ("RETURNING " ++ "t" ++ "id"))) :=
  ⟨⟨by decide, by decide⟩,
   (C4_on_conflict cfgC4 "t" [("a", vInt 1)] ["a"] ["a"]).1 (by decide),
   (C4_on_conflict cfgC4 "t" [("a", vInt 1)] ["a"] ["a"]).2 (by decide) (by decide)⟩

/-- The source configuration with sanitization enabled. -/
def cfgC5 : Cfg := ⟨some "datastateid", ⟨vNull, vNull, vNull⟩, true⟩

/-- Schema rows for table `t`: a text `name` column and an integer `tid`
column. -/
def schemaC5 : List Row :=
  [[("column_name", vStr "name"), ("data_type", vStr "text")],
   [("column_name", vStr "tid"), ("data_type", vStr "integer")]]

/-- Driver: the metadata query sees `schemaC5`; every other statement
returns the existing row `{name: "Alice"}`. -/
def execC5 : Exec := fun s =>
  if s.sql == schemaSql "t" then .ok schemaC5 else .ok [[("name", vStr "Alice")]]

/-- C5 counterexample: the claim says **every** update call executes
exactly one SQL statement whose SET clause begins with
`modified = now()`.  With sanitization/compare enabled and unchanged
values, the update is skipped entirely: three statements are executed (two
schema lookups and the compare fetch), none of them an UPDATE, and the
call resolves `updated: false`. -/
theorem C5_counterexample :
    (updateRun cfgC5 execC5 "t" (.scalar (vInt 5)) [("name", vStr "Alice")] true).1.countP
        isUpd = 0
      ∧ (updateRun cfgC5 execC5 "t" (.scalar (vInt 5)) [("name", vStr "Alice")] true).1.length
        = 3
      ∧ (updateRun cfgC5 execC5 "t" (.scalar (vInt 5)) [("name", vStr "Alice")] true).2
        = .resolved (.withFlag (.singleObj [("name", vStr "Alice")]) false) :=
  ⟨rfl, rfl, rfl⟩

/-- The built update SQL, recast around its `SET `. -/
theorem updateSql_set_split (cfg : Cfg) (table : String) (id : IdArg) (fields : FieldMap) :
    (updateSql cfg table id fields).1
      = ("UPDATE \"" ++ table ++ "\" ")
        ++ ("SET " ++ (String.intercalate ", " (updateSet cfg fields).1
            ++ (" WHERE "
              ++ ((updateWhere table id (updateSet cfg fields).2).1 ++ " RETURNING *")))) := by
  apply String.ext
  simp only [updateSql, String.data_append, List.append_assoc]
  rfl

/-- C5 amended: every update call whose sanitize/compare step resolves
without the no-changes signal executes exactly one UPDATE statement, and
that statement's SET clause begins with `modified = now(), ` (spliced in
by `query`), followed by the built SET fragments, WHERE fragment and
`RETURNING *`.  Any further executed statements are the schema/compare
SELECTs of sanitization; when the no-changes signal fires instead, no
UPDATE is executed at all (see the counterexample).  The side condition
excludes a table name containing `SET `, which would misplace the
splice. -/
theorem C5_update_timestamp (cfg : Cfg) (exec : Exec) (table : String) (id : IdArg) (data : FieldMap)
    (status : Bool) (sr : SanResult)
    (hres : (sanitizeFullRun cfg exec table data (if status then some id else none)).2
        = .resolved sr)
    (hnm : sr.matchesV = none)
    (hset : ¬ (("SET ".data) <:+: (("UPDATE \"" ++ table ++ "\" ").data ++ "SET".data))) :
    (updateRun cfg exec table id data status).1.countP isUpd = 1
      ∧ (updateRun cfg exec table id data status).1.filter isUpd
        = [⟨("UPDATE \"" ++ table ++ "\" ")
              ++ ("SET modified = now(), "
                ++ (String.intercalate ", " (updateSet cfg sr.fields).1
                    ++ (" WHERE "
                      ++ ((updateWhere table id (updateSet cfg sr.fields).2).1
                          ++ " RETURNING *")))),
            (updateSql cfg table id sr.fields).2⟩] := by
  have htr : transform (updateSql cfg table id sr.fields).1
      = ("UPDATE \"" ++ table ++ "\" ")
        ++ ("SET modified = now(), "
          ++ (String.intercalate ", " (updateSet cfg sr.fields).1
              ++ (" WHERE "
                ++ ((updateWhere table id (updateSet cfg sr.fields).2).1 ++ " RETURNING *")))) := by
    rw [updateSql_set_split]
    refine transform_spec _ _ ?_ hset
    simp only [String.data_append, List.append_assoc]
    exact (prefix_update_append _).isInfix
  have hupd : isUpd ⟨transform (updateSql cfg table id sr.fields).1,
      (updateSql cfg table id sr.fields).2⟩ = true := by
    have ha : (updateSql cfg table id sr.fields).1
        = "UPDATE \"" ++ (table ++ ("\" "
            ++ ("SET " ++ (String.intercalate ", " (updateSet cfg sr.fields).1
                ++ (" WHERE "
                  ++ ((updateWhere table id (updateSet cfg sr.fields).2).1
                      ++ " RETURNING *")))))) := by
      rw [updateSql_set_split, str_assoc, str_assoc]
    rw [ha]
    exact isUpd_transform_update _ _
  have hrun : (updateRun cfg exec table id data status).1
      = (sanitizeFullRun cfg exec table data (if status then some id else none)).1
        ++ [⟨transform (updateSql cfg table id sr.fields).1,
             (updateSql cfg table id sr.fields).2⟩] := by
    simp only [updateRun]
    rw [hres]
    simp only [hnm]
    cases hex : exec ⟨transform (updateSql cfg table id sr.fields).1,
        (updateSql cfg table id sr.fields).2⟩ <;> simp
  constructor
  · rw [hrun, List.countP_append, countP_isUpd_sanitizeFull]
    simp [List.countP_cons, hupd]
  · have hupd2 := hupd
    rw [htr] at hupd2
    rw [hrun, htr, List.filter_append]
    rw [List.filter_eq_nil.mpr (fun a ha => by
      simp [sanitizeFull_no_upd cfg exec table data _ a ha])]
    simp [List.filter_cons, hupd2]

/-- Witness for C5 amended: sanitization disabled, so the sanitize step is
a pass-through with a null no-changes signal and the conclusion holds of
the concrete call. -/
theorem C5_update_timestamp_witness :
    ((sanitizeFullRun ⟨some "datastateid", ⟨vNull, vNull, vNull⟩, false⟩ (fun _ => .ok [])
          "t" [("x", vInt 9)] (if false then some (IdArg.scalar (vInt 5)) else none)).2
        = .resolved ⟨[("x", vInt 9)], none⟩
      ∧ (⟨[("x", vInt 9)], none⟩ : SanResult).matchesV = none
      ∧ ¬ (("SET ".data) <:+: (("UPDATE \"" ++ "t" ++ "\" ").data ++ "SET".data)))
    ∧ (updateRun ⟨some "datastateid", ⟨vNull, vNull, vNull⟩, false⟩ (fun _ => .ok [])
          "t" (.scalar (vInt 5)) [("x", vInt 9)] false).1.countP isUpd = 1 :=
  ⟨⟨rfl, rfl, by decide⟩,
   (C5_update_timestamp ⟨some "datastateid", ⟨vNull, vNull, vNull⟩, false⟩ (fun _ => .ok [])
      "t" (.scalar (vInt 5)) [("x", vInt 9)] false ⟨[("x", vInt 9)], none⟩ rfl rfl
      (by decide)).1⟩

/-- The first returned row, or the empty object (`selectOne`
semantics). -/
def headRow : List Row → Row
  | r :: _ => r
  | [] => []

/-- The compare-fetch statement that `sanitizeFields` issues through
`selectOne` for a truthy scalar `compareId`: the (transformed) SELECT over
the sanitized `{table}id` filter. -/
def compareStmt (cfg : Cfg) (table : String) (v : Value) (columns : List Row) : Stmt :=
  ⟨transform (selectSql cfg table
      (sanitizeWithColumns columns [] false [(table ++ "id", v)]).fields
      [(table ++ "id", v)] none),
   (selectMatch cfg (sanitizeWithColumns columns [] false [(table ++ "id", v)]).fields
      [(table ++ "id", v)]).2⟩

/-- The `fields` projection of `sanitizeWithColumns` is the first component
of the sanitize loop. -/
theorem swc_fields (c : List Row) (o : Row) (cp : Bool) (f : FieldMap) :
    (sanitizeWithColumns c o cp f).fields = (sanitizeCore c o cp f).1 := rfl

/-- With sanitization on and a truthy scalar `compareId`, `sanitizeFields`
executes the schema lookup, the nested schema lookup and the compare
fetch, and resolves the sanitize result computed against the fetched
record. -/
theorem sanitizeFull_compare (cfg : Cfg) (exec : Exec) (table : String) (v : Value)
    (data : FieldMap) (columns oldRows : List Row)
    (hsan : cfg.sanitize = true) (hv : truthy v = true)
    (hschema : exec ⟨schemaSql table, []⟩ = .ok columns)
    (hfetch : exec (compareStmt cfg table v columns) = .ok oldRows) :
    sanitizeFullRun cfg exec table data (some (.scalar v))
      = ([⟨schemaSql table, []⟩, ⟨schemaSql table, []⟩, compareStmt cfg table v columns],
         .resolved (sanitizeWithColumns columns (headRow oldRows) true data)) := by
  have hNC : sanitizeNCRun cfg exec table [(table ++ "id", v)]
      = ([⟨schemaSql table, []⟩],
         .resolved (sanitizeWithColumns columns [] false [(table ++ "id", v)])) := by
    simp [sanitizeNCRun, hsan, hschema]
  have hselR : selectRun cfg exec table [(table ++ "id", v)] none
      = ([⟨schemaSql table, []⟩, compareStmt cfg table v columns], .resolved oldRows) := by
    simp only [selectRun, hNC]
    rw [show (⟨transform (selectSql cfg table
        (sanitizeWithColumns columns [] false [(table ++ "id", v)]).fields
        [(table ++ "id", v)] none),
      (selectMatch cfg (sanitizeWithColumns columns [] false [(table ++ "id", v)]).fields
        [(table ++ "id", v)]).2⟩ : Stmt) = compareStmt cfg table v columns from rfl]
    rw [hfetch]
    rfl
  have hone : selectOneRun cfg exec table [(table ++ "id", v)]
      = ([⟨schemaSql table, []⟩, compareStmt cfg table v columns],
         .resolved (headRow oldRows)) := by
    simp only [selectOneRun, hselR]
    cases oldRows <;> rfl
  simp [sanitizeFullRun, hsan, hschema, idTruthy, hv, idToValue, hone]

/-- C3: for every update call with sanitization and compare enabled (a
truthy scalar id with `status` requested): when the sanitized new values
are deep-equal to the fetched record values of those fields, no UPDATE
statement is executed and the call resolves `updated: false` with the
pre-existing field values; when they differ, exactly one UPDATE statement
is executed and (on driver success) the call resolves `updated: true`. -/
theorem C3_compare_and_skip (cfg : Cfg) (exec : Exec) (table : String) (v : Value)
    (data : FieldMap) (columns oldRows : List Row)
    (hsan : cfg.sanitize = true) (hv : truthy v = true)
    (hschema : exec ⟨schemaSql table, []⟩ = .ok columns)
    (hfetch : exec (compareStmt cfg table v columns) = .ok oldRows) :
    (isEqualMap (sanitizeCore columns (headRow oldRows) true data).1
        (sanitizeCore columns (headRow oldRows) true data).2 = true →
      (updateRun cfg exec table (.scalar v) data true).1.countP isUpd = 0
      ∧ (updateRun cfg exec table (.scalar v) data true).2
        = .resolved (.withFlag
            (.singleObj (sanitizeCore columns (headRow oldRows) true data).2) false))
    ∧ (isEqualMap (sanitizeCore columns (headRow oldRows) true data).1
        (sanitizeCore columns (headRow oldRows) true data).2 = false →
      (updateRun cfg exec table (.scalar v) data true).1.countP isUpd = 1
      ∧ ∀ rows : List Row,
          exec ⟨transform (updateSql cfg table (.scalar v)
              (sanitizeCore columns (headRow oldRows) true data).1).1,
            (updateSql cfg table (.scalar v)
              (sanitizeCore columns (headRow oldRows) true data).1).2⟩ = .ok rows →
          (updateRun cfg exec table (.scalar v) data true).2
            = .resolved (.withFlag (.rowList rows) true)) := by
  have hfull := sanitizeFull_compare cfg exec table v data columns oldRows hsan hv hschema hfetch
  constructor
  · intro hEq
    have hm : (sanitizeWithColumns columns (headRow oldRows) true data).matchesV
        = some (sanitizeCore columns (headRow oldRows) true data).2 := by
      simp [sanitizeWithColumns, hEq]
    have hrun : updateRun cfg exec table (.scalar v) data true
        = ([⟨schemaSql table, []⟩, ⟨schemaSql table, []⟩, compareStmt cfg table v columns],
           .resolved (.withFlag
             (.singleObj (sanitizeCore columns (headRow oldRows) true data).2) false)) := by
      simp only [updateRun, if_true, hfull]
      rw [hm]
    rw [hrun]
    refine ⟨?_, rfl⟩
    have hschemaF : isUpd ⟨schemaSql table, []⟩ = false := isUpd_false_of_headS _ _ _ rfl
    have hcmpF : isUpd (compareStmt cfg table v columns) = false :=
      isUpd_transform_false_of_headS _ _ _ rfl
    simp [List.countP_cons, hschemaF, hcmpF]
  · intro hEq
    have hm2 : (sanitizeWithColumns columns (headRow oldRows) true data).matchesV = none := by
      simp [sanitizeWithColumns, hEq]
    have hupd : isUpd ⟨transform (updateSql cfg table (.scalar v)
        (sanitizeCore columns (headRow oldRows) true data).1).1,
        (updateSql cfg table (.scalar v)
          (sanitizeCore columns (headRow oldRows) true data).1).2⟩ = true := by
      rw [show (updateSql cfg table (.scalar v)
          (sanitizeCore columns (headRow oldRows) true data).1).1
        = "UPDATE \"" ++ (table ++ ("\" " ++ ("SET "
            ++ (String.intercalate ", " (updateSet cfg
                  (sanitizeCore columns (headRow oldRows) true data).1).1
                ++ (" WHERE " ++ ((updateWhere table (.scalar v)
                      (updateSet cfg (sanitizeCore columns (headRow oldRows) true data).1).2).1
                    ++ " RETURNING *")))))) from by
        rw [updateSql_set_split, str_assoc, str_assoc]]
      exact isUpd_transform_update _ _
    have hschemaF : isUpd ⟨schemaSql table, []⟩ = false := isUpd_false_of_headS _ _ _ rfl
    have hcmpF : isUpd (compareStmt cfg table v columns) = false :=
      isUpd_transform_false_of_headS _ _ _ rfl
    constructor
    · have hnegS : ¬ isUpd ⟨schemaSql table, []⟩ = true := by simp [hschemaF]
      have hnegC : ¬ isUpd (compareStmt cfg table v columns) = true := by simp [hcmpF]
      have hcount : List.countP isUpd
          ([⟨schemaSql table, []⟩, ⟨schemaSql table, []⟩, compareStmt cfg table v columns]
            ++ [⟨transform (updateSql cfg table (.scalar v)
                  (sanitizeCore columns (headRow oldRows) true data).1).1,
                (updateSql cfg table (.scalar v)
                  (sanitizeCore columns (headRow oldRows) true data).1).2⟩]) = 1 := by
        rw [List.countP_append,
          List.countP_cons_of_neg _ _ hnegS, List.countP_cons_of_neg _ _ hnegS,
          List.countP_cons_of_neg _ _ hnegC, List.countP_nil,
          List.countP_cons_of_pos _ _ hupd, List.countP_nil]
      simp only [updateRun, if_true, hfull]
      rw [hm2]
      dsimp only
      cases hex : exec ⟨transform (updateSql cfg table (.scalar v)
          (sanitizeWithColumns columns (headRow oldRows) true data).fields).1,
        (updateSql cfg table (.scalar v)
          (sanitizeWithColumns columns (headRow oldRows) true data).fields).2⟩
      · exact hcount
      · exact hcount
    · intro rows hok
      simp only [updateRun, if_true, hfull]
      rw [hm2]
      simp only [swc_fields]
      rw [hok]

/-- Sanitization and status configuration for the C3 witness. -/
def cfgC3 : Cfg := ⟨some "datastateid", ⟨vNull, vNull, vNull⟩, true⟩

/-- Schema of table `t` for the C3 witness: `name` (text) and `tid`
(integer). -/
def schemaC3 : List Row :=
  [[("column_name", vStr "name"), ("data_type", vStr "text")],
   [("column_name", vStr "tid"), ("data_type", vStr "integer")]]

/-- Driver for the C3 witness: the metadata query sees `schemaC3`; every
other statement returns the existing row `{name: "Alice"}`. -/
def execC3 : Exec := fun s =>
  if s.sql == schemaSql "t" then .ok schemaC3 else .ok [[("name", vStr "Alice")]]

/-- Witness for C3: updating `{name: "Alice"}` on a row whose `name`
already equals `"Alice"` executes no UPDATE and reports
`updated: false` with the pre-existing value. -/
theorem C3_compare_and_skip_witness :
    (cfgC3.sanitize = true
      ∧ truthy (vInt 5) = true
      ∧ execC3 ⟨schemaSql "t", []⟩ = .ok schemaC3
      ∧ execC3 (compareStmt cfgC3 "t" (vInt 5) schemaC3) = .ok [[("name", vStr "Alice")]]
      ∧ isEqualMap
          (sanitizeCore schemaC3 (headRow [[("name", vStr "Alice")]]) true
            [("name", vStr "Alice")]).1
          (sanitizeCore schemaC3 (headRow [[("name", vStr "Alice")]]) true
            [("name", vStr "Alice")]).2 = true)
    ∧ ((updateRun cfgC3 execC3 "t" (.scalar (vInt 5)) [("name", vStr "Alice")] true).1.countP
          isUpd = 0
      ∧ (updateRun cfgC3 execC3 "t" (.scalar (vInt 5)) [("name", vStr "Alice")] true).2
        = .resolved (.withFlag
            (.singleObj (sanitizeCore schemaC3 (headRow [[("name", vStr "Alice")]]) true
              [("name", vStr "Alice")]).2) false)) :=
  ⟨⟨rfl, rfl, rfl, rfl, rfl⟩,
   (C3_compare_and_skip cfgC3 execC3 "t" (vInt 5) [("name", vStr "Alice")] schemaC3
      [[("name", vStr "Alice")]] rfl rfl rfl rfl).1 rfl⟩

end PgWrap
